import Mathlib

/-!
Verification of the OpenLayers drawing/measurement component
(`src/components/OpenLayersMap.tsx`).

The component draws geometric annotations (Point, LineString, Polygon,
Circle) over a static image and, while a LineString or Polygon sketch is
in progress, shows a live measurement tooltip that freezes when the sketch
ends.  The shallow embedding below models:

* coordinates as pairs of rationals (the source works with JS
  floating-point viewport units; all claim-relevant inputs are exact);
* the `useEffect[drawType]` body, the `drawstart`/`drawend` handlers and
  the geometry `change` handler, translated statement by statement from
  the source;
* the OpenLayers library facilities the component calls (`getLength`,
  `getArea`, `getInteriorPoint`, the `Draw` interaction's commit and
  polygon auto-close behaviour, `Overlay`, `unByKey`) — these are not
  part of the repository, so they are modelled from the specification,
  each marked `Modelled from the spec:` in its doc comment;
* DOM tooltip elements and map overlays as arenas indexed by allocation
  order, so that element/overlay identity (which element a stale closure
  still points at, which overlays remain attached to the map) is explicit.

The DOM element's `innerHTML` is modelled symbolically: the machine stores
the measurement content (`LabelText`) written into the element, and
`renderLabel` gives the concrete string, mirroring the source's
`formatLength`/`formatArea`.
-/

namespace OLMap

/-- A viewport coordinate: a pair of (exact) numbers, modelling the
source's `[x, y]` coordinate arrays of floating-point viewport units. -/
structure Coord where
  x : ℚ
  y : ℚ
deriving DecidableEq

/-- The `geometryTypes` constant of the source:
`["Point", "LineString", "Polygon", "Circle"]`. -/
inductive GeometryType
  | point
  | lineString
  | polygon
  | circle
deriving DecidableEq

/-- An in-progress or committed line/polygon geometry: the sketch
geometries the measure tooltip handler discriminates on
(`geom instanceof Polygon` / `geom instanceof LineString`). -/
inductive SketchGeom
  | lineString (coords : List Coord)
  | polygon (ring : List Coord)
deriving DecidableEq

/-! ## Measurement (source `formatLength` / `formatArea`)

`getLength` and `getArea` are imported by the source from the OpenLayers
library, which is not part of this repository, so they are modelled from
the specification: "length = sum of Euclidean distances between
consecutive vertices of the current LineString; area = unsigned planar
area of the current Polygon ring (shoelace formula, using only vertices
entered so far, ring implicitly closed for the area computation)". -/

/-- Modelled from the spec: the library's `getLength` — the sum of
Euclidean distances between consecutive vertices of the line. -/
noncomputable def getLength : List Coord → ℝ
  | a :: b :: rest =>
      Real.sqrt (((b.x - a.x : ℚ) : ℝ) ^ 2 + ((b.y - a.y : ℚ) : ℝ) ^ 2)
        + getLength (b :: rest)
  | _ => 0

/-- The cross term `x_i * y_j - x_j * y_i` of the shoelace formula. -/
def cross (a b : Coord) : ℚ := a.x * b.y - b.x * a.y

/-- Sum of shoelace cross terms over consecutive vertices of `l`, closing
the ring back to `c0` after the last vertex. -/
def ringCrossFrom (c0 : Coord) : List Coord → ℚ
  | [] => 0
  | [a] => cross a c0
  | a :: b :: rest => cross a b + ringCrossFrom c0 (b :: rest)

/-- Modelled from the spec: the library's `getArea` — the unsigned planar
area of the ring by the shoelace formula, the ring implicitly closed. -/
def getArea : List Coord → ℚ
  | [] => 0
  | c0 :: rest => |ringCrossFrom c0 (c0 :: rest)| / 2

/-- JavaScript's `Math.round`: round half toward positive infinity. -/
noncomputable def jsRound (r : ℝ) : ℤ := ⌊r + 1 / 2⌋

/-- JavaScript's `Math.round` on an exact rational input. -/
def jsRoundQ (q : ℚ) : ℤ := ⌊q + 1 / 2⌋

/-- Source `formatLength`: `Math.round(getLength(line)) + " px"`. -/
noncomputable def formatLength (line : List Coord) : String :=
  toString (jsRound (getLength line)) ++ " px"

/-- Source `formatArea`: `Math.round(getArea(polygon)) + " px²"`. -/
def formatArea (ring : List Coord) : String :=
  toString (jsRoundQ (getArea ring)) ++ " px²"

/-- The measurement content written into the tooltip element's
`innerHTML`, kept symbolically; `renderLabel` gives the string. -/
inductive LabelText
  | lengthLabel (coords : List Coord)
  | areaLabel (ring : List Coord)
deriving DecidableEq

/-- The string a stored `LabelText` renders to, exactly the source's
`output` (`formatLength`/`formatArea` applied to the current geometry). -/
noncomputable def renderLabel : LabelText → String
  | .lengthLabel cs => formatLength cs
  | .areaLabel ring => formatArea ring

/-! ## Library geometry helpers (modelled from the spec) -/

/-- Insert into a sorted list of rationals (ascending). -/
def insertSorted (x : ℚ) : List ℚ → List ℚ
  | [] => [x]
  | y :: ys => if x ≤ y then x :: y :: ys else y :: insertSorted x ys

/-- Insertion sort for rationals (ascending). -/
def sortQ (l : List ℚ) : List ℚ := l.foldr insertSorted []

/-- Group a sorted crossing list into chords: elements at positions
(0,1), (2,3), ... -/
def chordPairs : List ℚ → List (ℚ × ℚ)
  | a :: b :: rest => (a, b) :: chordPairs rest
  | _ => []

/-- Modelled from the spec: the library's `getInteriorPoint` — "a
deterministic point guaranteed to lie inside the ring, not simply the
centroid".  The library computes it as the midpoint of the widest
horizontal chord of the ring at the vertical midpoint of the ring's
extent; that computation is reproduced here.  Claims use only that the
polygon anchor is this function's value. -/
def interiorPoint (ring : List Coord) : Coord :=
  match ring with
  | [] => ⟨0, 0⟩
  | c :: rest =>
    let lo := rest.foldl (fun m p => min m p.y) c.y
    let hi := rest.foldl (fun m p => max m p.y) c.y
    let midY := (lo + hi) / 2
    let edges := (c :: rest).zip (rest ++ [c])
    let xs := sortQ (edges.filterMap (fun e =>
      if (e.1.y ≤ midY ∧ midY < e.2.y) ∨ (e.2.y ≤ midY ∧ midY < e.1.y)
      then some (e.1.x + (midY - e.1.y) * (e.2.x - e.1.x) / (e.2.y - e.1.y))
      else none))
    match (chordPairs xs).foldl (fun best p =>
      match best with
      | none => some p
      | some q => if q.2 - q.1 < p.2 - p.1 then some p else some q) none with
    | some p => ⟨(p.1 + p.2) / 2, midY⟩
    | none => c

/-- Modelled from the spec: the `Draw` interaction's polygon auto-close on
end-sketch — "if [the ring] has at least 3 non-closing vertices and the
first vertex does not coordinate-equal the last, append a copy of the
first vertex to close the ring before committing"; with fewer than 3
non-closing vertices the close step is skipped.  Coordinate equality is
exact equality on both axes. -/
def autoClose (ring : List Coord) : List Coord :=
  match ring.head? with
  | none => ring
  | some c0 =>
      if 3 ≤ ring.length ∧ ring.getLast? ≠ some c0 then ring ++ [c0] else ring

/-- Modelled from the spec: on end-sketch the `Draw` interaction
finalizes the sketch geometry before committing — polygons are
auto-closed, line strings are committed as-is. -/
def finalizeGeom : SketchGeom → SketchGeom
  | .lineString cs => .lineString cs
  | .polygon ring => .polygon (autoClose ring)

/-! ## The component's state

Arenas (`elems`, `ovls`, `geoms`, `sessions`) model object identity:
indices are allocation order and are never reused, so a stale closure
reference and a fresh object are distinguishable. -/

/-- A measure tooltip DOM element (`measureTooltipElement` in source):
its class, its symbolic `innerHTML`, and whether `element.remove()` has
been called on it. -/
structure ElemData where
  className : String
  innerHTML : Option LabelText
  removed : Bool
deriving DecidableEq

/-- An OpenLayers `Overlay` (`measureTooltip` in source): the element it
wraps, its pixel offset and its position.  The constant construction
options (`positioning: "bottom-center"`, `stopEvent`, `insertFirst`) are
never read by the component and are not modelled. -/
structure OverlayData where
  elemId : Nat
  offset : ℤ × ℤ
  position : Option Coord
deriving DecidableEq

/-- A geometry `change` subscription created by
`sketch.getGeometry().on("change", ...)`: its `unByKey` key, the geometry
it listens on, and the effect-run closure its handler captured. -/
structure Listener where
  key : Nat
  geomId : Nat
  sessionId : Nat
deriving DecidableEq

/-- The mutable closure variables of one run of the `useEffect[drawType]`
measure branch: `sketch` (its geometry), `measureTooltipElement`,
`measureTooltip`, and `listener`. -/
structure Session where
  sketchGeomId : Option Nat
  elemId : Option Nat
  overlayId : Option Nat
  listenerKey : Option Nat
deriving DecidableEq

/-- An interaction attached to the map (`Draw` bound to a geometry type,
or `Snap`). -/
inductive Interaction
  | draw (t : GeometryType)
  | snap
deriving DecidableEq

/-- The whole component state: the `drawType` React state, the
mount-effect refs (`mapRef`/`vectorSourceRef` modelled by the two
init flags), the vector source's committed features (`annotations`), the
object arenas, the overlays and interactions attached to the map, the
current effect run's closure (`curSession`), and the live geometry
`change` subscriptions. -/
structure AppState where
  drawType : GeometryType
  mapInit : Bool
  sourceInit : Bool
  annotations : List SketchGeom
  geoms : List SketchGeom
  elems : List ElemData
  ovls : List OverlayData
  mapOverlays : List Nat
  interactions : List Interaction
  sessions : List Session
  curSession : Option Nat
  listeners : List Listener
  nextKey : Nat
deriving DecidableEq

/-- Update the element at one index of a list, in place. -/
def listModify {α : Type _} : List α → Nat → (α → α) → List α
  | [], _, _ => []
  | a :: t, 0, f => f a :: t
  | a :: t, n + 1, f => a :: listModify t n f

/-- Mutate one tooltip element. -/
def modElem (s : AppState) (eid : Nat) (f : ElemData → ElemData) : AppState :=
  { s with elems := listModify s.elems eid f }

/-- Mutate one overlay. -/
def modOvl (s : AppState) (oid : Nat) (f : OverlayData → OverlayData) : AppState :=
  { s with ovls := listModify s.ovls oid f }

/-- Mutate one session's closure variables. -/
def modSession (s : AppState) (sid : Nat) (f : Session → Session) : AppState :=
  { s with sessions := listModify s.sessions sid f }

/-! ## The component's operations, translated from the source -/

/-- Source `createMeasureTooltip` (closure of effect run `sid`): remove
the previous element if the closure still holds one, create a fresh
element with the live class `"ol-tooltip ol-tooltip-measure"`, wrap it in
a fresh `Overlay` with offset `[0, -15]`, store both in the closure
variables, and `mapRef.current?.addOverlay` it. -/
def createMeasureTooltip (s : AppState) (sid : Nat) : AppState :=
  let s1 : AppState :=
    match s.sessions[sid]? with
    | some ss =>
        match ss.elemId with
        | some eid => modElem s eid (fun e => { e with removed := true })
        | none => s
    | none => s
  let eid := s1.elems.length
  let s2 : AppState := { s1 with
    elems := s1.elems ++ [ElemData.mk "ol-tooltip ol-tooltip-measure" none false] }
  let oid := s2.ovls.length
  let s3 : AppState := { s2 with ovls := s2.ovls ++ [OverlayData.mk eid (0, -15) none] }
  let s4 : AppState := modSession s3 sid
    (fun ss => { ss with elemId := some eid, overlayId := some oid })
  if s4.mapInit then { s4 with mapOverlays := s4.mapOverlays ++ [oid] } else s4

/-- The `output` the geometry `change` handler computes: `formatArea` for
a polygon, `formatLength` for a line string (stored symbolically). -/
def labelOf : SketchGeom → LabelText
  | .polygon ring => .areaLabel ring
  | .lineString cs => .lengthLabel cs

/-- The `tooltipCoord` the geometry `change` handler computes: the
polygon's interior point, or the line string's last coordinate. -/
def anchorOf : SketchGeom → Option Coord
  | .polygon ring => some (interiorPoint ring)
  | .lineString cs => cs.getLast?

/-- The geometry `change` handler registered in `drawstart` (closure of
effect run `sid`): compute `output` and `tooltipCoord` from the changed
geometry, write `output` into the closure's current
`measureTooltipElement` if it is non-null, and `setPosition` the
closure's current `measureTooltip`. -/
def changeHandler (s : AppState) (sid : Nat) (g : SketchGeom) : AppState :=
  match s.sessions[sid]? with
  | none => s
  | some ss =>
    let s1 :=
      match ss.elemId with
      | some eid => modElem s eid (fun e => { e with innerHTML := some (labelOf g) })
      | none => s
    match ss.overlayId with
    | some oid => modOvl s1 oid (fun o => { o with position := anchorOf g })
    | none => s1

/-- The sketch geometry with id `gid` mutates to `g`; the geometry then
dispatches a `change` event to every subscription attached to it. -/
def geomChange (s : AppState) (gid : Nat) (g : SketchGeom) : AppState :=
  let s1 := { s with geoms := listModify s.geoms gid (fun _ => g) }
  (s1.listeners.filter (fun l => l.geomId = gid)).foldl
    (fun st l => changeHandler st l.sessionId g) s1

/-- The source's `drawstart` handler: store the new sketch feature in the
closure (`sketch = evt.feature`, its geometry allocated fresh with
initial shape `g0`) and subscribe the geometry `change` handler
(`listener = sketch.getGeometry().on("change", ...)`).  Registered only
in the measure branch, so a no-op when the current effect run is not a
measure run. -/
def drawstartEv (s : AppState) (g0 : SketchGeom) : AppState :=
  match s.curSession with
  | none => s
  | some sid =>
    let gid := s.geoms.length
    let s1 : AppState := { s with geoms := s.geoms ++ [g0] }
    let s2 : AppState := modSession s1 sid (fun ss => { ss with sketchGeomId := some gid })
    let k := s2.nextKey
    let s3 : AppState := modSession s2 sid (fun ss => { ss with listenerKey := some k })
    { s3 with listeners := s3.listeners ++ [Listener.mk k gid sid], nextKey := k + 1 }

/-- The source's `drawend` handler (closure of effect run `sid`): switch
the element to the static class, nudge the overlay offset to `[0, -7]`,
null `sketch` and `measureTooltipElement`, arm a fresh tooltip via
`createMeasureTooltip()`, and `unByKey(listener)`. -/
def drawendHandler (s : AppState) (sid : Nat) : AppState :=
  match s.sessions[sid]? with
  | none => s
  | some ss =>
    let s1 :=
      match ss.elemId with
      | some eid =>
          modElem s eid (fun e => { e with className := "ol-tooltip ol-tooltip-static" })
      | none => s
    let s2 :=
      match ss.overlayId with
      | some oid => modOvl s1 oid (fun o => { o with offset := (0, -7) })
      | none => s1
    let s3 := modSession s2 sid
      (fun ss2 => { ss2 with sketchGeomId := none, elemId := none })
    let s4 := createMeasureTooltip s3 sid
    match ss.listenerKey with
    | some k => { s4 with listeners := s4.listeners.filter (fun l => l.key ≠ k) }
    | none => s4

/-- End-sketch: the `Draw` interaction finalizes the sketch geometry
(auto-closing a polygon ring) — which, being a geometry mutation, fires a
final `change` event — then dispatches `drawend` to the source's handler,
then commits the finished feature into the vector source.  A no-op when
the current effect run is not a measure run (no handlers registered). -/
def drawendEv (s : AppState) : AppState :=
  match s.curSession with
  | none => s
  | some sid =>
    match s.sessions[sid]? with
    | none => s
    | some ss =>
      match ss.sketchGeomId with
      | none => s
      | some gid =>
        match s.geoms[gid]? with
        | none => s
        | some g =>
          let final := finalizeGeom g
          let s1 := geomChange s gid final
          let s2 := drawendHandler s1 sid
          { s2 with annotations := s2.annotations ++ [final] }

/-- Remove the attached `Draw` interaction, if any (`drawRef` discipline:
at most one is ever attached). -/
def eraseDraw (l : List Interaction) : List Interaction :=
  l.filter (fun i => match i with | .draw _ => false | .snap => true)

/-- Remove the attached `Snap` interaction, if any. -/
def eraseSnap (l : List Interaction) : List Interaction :=
  l.filter (fun i => match i with | .draw _ => true | .snap => false)

/-- The body of the source's `useEffect[drawType]` (lines 61–154): guard
on the map and vector source refs; remove the current `Draw` and `Snap`
interactions; for `LineString`/`Polygon` open a fresh closure (a new
`Session`), attach a new `Draw`, create the measure tooltip and register
the `drawstart`/`drawend` handlers; otherwise attach a plain `Draw`;
finally attach a new `Snap`. -/
def runDrawTypeEffect (s : AppState) : AppState :=
  if ¬ (s.mapInit ∧ s.sourceInit) then s
  else
    let s1 : AppState := { s with interactions := eraseSnap (eraseDraw s.interactions) }
    if s.drawType = .lineString ∨ s.drawType = .polygon then
      let sid := s1.sessions.length
      let s2 : AppState := { s1 with
        sessions := s1.sessions ++ [Session.mk none none none none],
        curSession := some sid }
      let s3 : AppState := { s2 with
        interactions := s2.interactions ++ [Interaction.draw s.drawType] }
      let s4 : AppState := createMeasureTooltip s3 sid
      { s4 with interactions := s4.interactions ++ [Interaction.snap] }
    else
      let s2 : AppState := { s1 with
        interactions := s1.interactions ++ [Interaction.draw s.drawType],
        curSession := none }
      { s2 with interactions := s2.interactions ++ [Interaction.snap] }

/-- The user selects a geometry type: the `select`'s `onChange` calls
`setDrawType`; React re-renders and re-runs the `[drawType]` effect only
when the value differs from the current state (same-value updates bail
out), so an equal selection leaves the state untouched. -/
def setGeometryType (s : AppState) (t : GeometryType) : AppState :=
  if t = s.drawType then s else runDrawTypeEffect { s with drawType := t }

/-- The external events the component reacts to. -/
inductive Event
  | select (t : GeometryType)
  | start (g0 : SketchGeom)
  | change (gid : Nat) (g : SketchGeom)
  | finish

/-- One event step of the component. -/
def step (s : AppState) : Event → AppState
  | .select t => setGeometryType s t
  | .start g0 => drawstartEv s g0
  | .change gid g => geomChange s gid g
  | .finish => drawendEv s

/-- Run a sequence of events. -/
def run (s : AppState) (evs : List Event) : AppState := evs.foldl step s

/-- The state after the mount effect: map and vector source created,
`drawType` at its `useState` initial value `"Point"`, nothing attached
yet. -/
def mountState : AppState :=
  ⟨.point, true, true, [], [], [], [], [], [], [], none, [], 0⟩

/-- The state once the `[drawType]` effect has run for the initial
`"Point"` selection. -/
def initState : AppState := runDrawTypeEffect mountState

/-! ## State predicates and concrete witness states -/

/-- The state of an in-progress LineString/Polygon sketch: the current
effect run is the measure run `sid`, whose closure holds the sketch
geometry `gid`, the live tooltip element `eid` and overlay `oid` (both
allocated), and the `change` subscription `k`, which is the only
subscription attached to the sketch geometry. -/
def LiveSession (s : AppState) (sid gid eid oid k : Nat) : Prop :=
  s.mapInit = true ∧
  s.curSession = some sid ∧
  s.sessions[sid]? = some ⟨some gid, some eid, some oid, some k⟩ ∧
  eid < s.elems.length ∧ oid < s.ovls.length ∧
  s.listeners.filter (fun l => l.geomId = gid) = [⟨k, gid, sid⟩]

instance decLiveSession (s : AppState) (sid gid eid oid k : Nat) :
    Decidable (LiveSession s sid gid eid oid k) := by
  unfold LiveSession
  infer_instance

/-- A tooltip element no closure points at any more: every write path to
an element goes through some session's `measureTooltipElement` variable,
so such an element can never be written again. -/
def FrozenElem (s : AppState) (eid : Nat) : Prop :=
  eid < s.elems.length ∧
  ∀ (j : Nat) (ss2 : Session), s.sessions[j]? = some ss2 → ss2.elemId ≠ some eid

/-- A concrete live LineString sketch (one vertex placed), used to
instantiate the general theorems. -/
def liveLineState : AppState :=
  run initState [.select .lineString, .start (.lineString [⟨0, 0⟩])]

/-- A concrete live Polygon sketch (one vertex placed). -/
def livePolyState : AppState :=
  run initState [.select .polygon, .start (.polygon [⟨0, 0⟩])]

/-- A concrete run that switches geometry type in the middle of a
LineString sketch: select LineString, start a sketch at `(0,0)`, extend
it to `(3,4)`, then switch to Point. -/
def switchMidSketch : AppState :=
  run initState [.select .lineString, .start (.lineString [⟨0, 0⟩]),
    .change 0 (.lineString [⟨0, 0⟩, ⟨3, 4⟩]), .select .point]

/-- A concrete polygon draw completed with the three vertices
`(0,0), (10,0), (10,10)` (open ring at end-sketch). -/
def polyCloseRun : AppState :=
  run initState [.select .polygon, .start (.polygon [⟨0, 0⟩]),
    .change 0 (.polygon [⟨0, 0⟩, ⟨10, 0⟩, ⟨10, 10⟩]), .finish]

/-- A concrete polygon draw completed with only the two vertices
`(0,0), (10,0)`. -/
def polyOpenRun : AppState :=
  run initState [.select .polygon, .start (.polygon [⟨0, 0⟩]),
    .change 0 (.polygon [⟨0, 0⟩, ⟨10, 0⟩]), .finish]

/-! ## List helper lemmas -/

theorem listModify_length {α : Type _} :
    ∀ (l : List α) (n : Nat) (f : α → α), (listModify l n f).length = l.length := by
  intro l
  induction l with
  | nil => intro n f; rfl
  | cons a t ih =>
    intro n f
    cases n with
    | zero => rfl
    | succ m => simp [listModify, ih]

theorem getElem?_listModify_self {α : Type _} :
    ∀ (l : List α) (n : Nat) (f : α → α),
      (listModify l n f)[n]? = (l[n]?).map f := by
  intro l
  induction l with
  | nil => intro n f; cases n <;> rfl
  | cons a t ih =>
    intro n f
    cases n with
    | zero => simp [listModify]
    | succ m => simp [listModify, ih]

theorem getElem?_listModify_ne {α : Type _} :
    ∀ (l : List α) (n m : Nat) (f : α → α), m ≠ n →
      (listModify l n f)[m]? = l[m]? := by
  intro l
  induction l with
  | nil => intro n m f _; rfl
  | cons a t ih =>
    intro n m f hne
    cases n with
    | zero =>
      cases m with
      | zero => exact absurd rfl hne
      | succ j => simp [listModify]
    | succ i =>
      cases m with
      | zero => simp [listModify]
      | succ j =>
        simp only [listModify, List.getElem?_cons_succ]
        exact ih i j f (by omega)

theorem getElem?_append_lt {α : Type _} (l l2 : List α) (i : Nat)
    (h : i < l.length) : (l ++ l2)[i]? = l[i]? := by
  rw [List.getElem?_append_left h]

theorem filter_key_length (k : Nat) :
    ∀ l : List Listener,
      (l.filter (fun x => x.key ≠ k)).length
        + (l.filter (fun x => x.key = k)).length = l.length := by
  intro l
  induction l with
  | nil => rfl
  | cons a t ih =>
    by_cases h : a.key = k
    · have h1 : List.filter (fun x => x.key ≠ k) (a :: t)
          = List.filter (fun x => x.key ≠ k) t := by
        simp [List.filter_cons, h]
      have h2 : List.filter (fun x => x.key = k) (a :: t)
          = a :: List.filter (fun x => x.key = k) t := by
        simp [List.filter_cons, h]
      rw [h1, h2]
      simp only [List.length_cons]
      omega
    · have h1 : List.filter (fun x => x.key ≠ k) (a :: t)
          = a :: List.filter (fun x => x.key ≠ k) t := by
        simp [List.filter_cons, h]
      have h2 : List.filter (fun x => x.key = k) (a :: t)
          = List.filter (fun x => x.key = k) t := by
        simp [List.filter_cons, h]
      rw [h1, h2]
      simp only [List.length_cons]
      omega

/-! ## Measurement formula lemmas -/

/-- `getLength` is the sum of the Euclidean distances over consecutive
vertex pairs (the claim's order-sensitive pairwise formula). -/
theorem getLength_eq_pairSum : ∀ cs : List Coord,
    getLength cs =
      ((cs.zip cs.tail).map (fun p =>
        Real.sqrt (((p.2.x - p.1.x : ℚ) : ℝ) ^ 2
          + ((p.2.y - p.1.y : ℚ) : ℝ) ^ 2))).sum := by
  intro cs
  induction cs with
  | nil => simp [getLength]
  | cons a tail ih =>
    cases tail with
    | nil => simp [getLength]
    | cons b rest =>
      simp only [getLength, List.zip_cons_cons, List.tail_cons, List.map_cons,
        List.sum_cons]
      rw [ih]
      simp

/-- `ringCrossFrom c0 l` sums the cross terms over consecutive pairs of
`l` with the wrap-around pair back to `c0`. -/
theorem ringCrossFrom_eq_pairSum (c0 : Coord) : ∀ l : List Coord,
    ringCrossFrom c0 l =
      ((l.zip (l.tail ++ [c0])).map (fun p => cross p.1 p.2)).sum := by
  intro l
  induction l with
  | nil => simp [ringCrossFrom]
  | cons a tail ih =>
    cases tail with
    | nil => simp [ringCrossFrom]
    | cons b rest =>
      simp only [ringCrossFrom, List.tail_cons, List.cons_append,
        List.zip_cons_cons, List.map_cons, List.sum_cons]
      rw [ih]
      simp

/-- `getArea` is the unsigned shoelace area over the vertex list with the
ring implicitly closed (consecutive pairs with wrap-around), divided by
two, hence non-negative. -/
theorem getArea_eq_shoelace : ∀ ring : List Coord,
    getArea ring =
      |((ring.zip (ring.tail ++ ring.take 1)).map
          (fun p => cross p.1 p.2)).sum| / 2
      ∧ 0 ≤ getArea ring := by
  intro ring
  cases ring with
  | nil => simp [getArea]
  | cons c0 rest =>
    constructor
    · simp only [getArea, List.take_succ_cons, List.take_zero, List.tail_cons]
      rw [ringCrossFrom_eq_pairSum]
      simp
    · simp only [getArea]
      positivity

/-! ## A live measure sketch -/

/-- What one sketch `change` event does while a measure sketch is live:
the geometry mutates, and the single subscribed handler writes the
measurement of the new shape into the live element and re-anchors the
live overlay. -/
theorem geomChange_live (s : AppState) (sid gid eid oid k : Nat) (g : SketchGeom)
    (hsess : s.sessions[sid]? = some ⟨some gid, some eid, some oid, some k⟩)
    (hfil : s.listeners.filter (fun l => l.geomId = gid) = [⟨k, gid, sid⟩]) :
    geomChange s gid g =
      { s with
        geoms := listModify s.geoms gid (fun _ => g),
        elems := listModify s.elems eid
          (fun e => { e with innerHTML := some (labelOf g) }),
        ovls := listModify s.ovls oid
          (fun o => { o with position := anchorOf g }) } := by
  unfold geomChange
  dsimp only
  rw [hfil]
  simp only [List.foldl_cons, List.foldl_nil]
  unfold changeHandler
  dsimp only
  rw [hsess]
  rfl

/-- The two observations of a live `change` event: the live element's
`innerHTML` now holds the new shape's measurement, and the live overlay
is anchored at the new shape's anchor coordinate. -/
theorem geomChange_live_obs (s : AppState) (sid gid eid oid k : Nat) (g : SketchGeom)
    (hsess : s.sessions[sid]? = some ⟨some gid, some eid, some oid, some k⟩)
    (hfil : s.listeners.filter (fun l => l.geomId = gid) = [⟨k, gid, sid⟩])
    (heid : eid < s.elems.length) (hoid : oid < s.ovls.length) :
    ((geomChange s gid g).elems[eid]?).map (fun e => e.innerHTML)
        = some (some (labelOf g))
    ∧ ((geomChange s gid g).ovls[oid]?).map (fun o => o.position)
        = some (anchorOf g) := by
  rw [geomChange_live s sid gid eid oid k g hsess hfil]
  have he : s.elems[eid]? = some s.elems[eid] := List.getElem?_eq_getElem heid
  have ho : s.ovls[oid]? = some s.ovls[oid] := List.getElem?_eq_getElem hoid
  constructor
  · dsimp only
    rw [getElem?_listModify_self, he]
    rfl
  · dsimp only
    rw [getElem?_listModify_self, ho]
    rfl

/-- Claim C2: for every LineString sketch with at least 2 vertices
entered so far, the live measurement written after a shape-changed event
is the measurement of exactly the current vertex list; the displayed text
is `round(measurement) ++ " px"`; and the measurement is the
order-sensitive sum of Euclidean distances between consecutive
vertices. -/
theorem lineString_live_measurement (s : AppState) (sid gid eid oid k : Nat)
    (vs : List Coord) (hl : LiveSession s sid gid eid oid k)
    (_hN : 2 ≤ vs.length) :
    ((geomChange s gid (.lineString vs)).elems[eid]?).map (fun e => e.innerHTML)
        = some (some (.lengthLabel vs))
    ∧ renderLabel (.lengthLabel vs) = toString (jsRound (getLength vs)) ++ " px"
    ∧ getLength vs =
        ((vs.zip vs.tail).map (fun p =>
          Real.sqrt (((p.2.x - p.1.x : ℚ) : ℝ) ^ 2
            + ((p.2.y - p.1.y : ℚ) : ℝ) ^ 2))).sum := by
  obtain ⟨hm, hc, hsess, heid, hoid, hfil⟩ := hl
  exact ⟨(geomChange_live_obs s sid gid eid oid k (.lineString vs)
      hsess hfil heid hoid).1, rfl, getLength_eq_pairSum vs⟩

/-- Claim C2 witness: a concrete live sketch with vertices
`[(0,0), (3,4)]`. -/
theorem lineString_live_measurement_witness :
    (LiveSession liveLineState 0 0 0 0 0
        ∧ 2 ≤ ([⟨0, 0⟩, ⟨3, 4⟩] : List Coord).length)
    ∧ ((geomChange liveLineState 0
          (.lineString [⟨0, 0⟩, ⟨3, 4⟩])).elems[0]?).map (fun e => e.innerHTML)
        = some (some (.lengthLabel [⟨0, 0⟩, ⟨3, 4⟩])) :=
  ⟨⟨by decide, by decide⟩,
    (lineString_live_measurement liveLineState 0 0 0 0 0
      [⟨0, 0⟩, ⟨3, 4⟩] (by decide) (by decide)).1⟩

/-- Claim C3: for every Polygon sketch, the live area written after a
shape-changed event is the area of exactly the current ring; the
displayed text is `round(area) ++ " px²"`; and the area is the unsigned
shoelace value over the ring implicitly closed, hence non-negative. -/
theorem polygon_live_area (s : AppState) (sid gid eid oid k : Nat)
    (ring : List Coord) (hl : LiveSession s sid gid eid oid k) :
    ((geomChange s gid (.polygon ring)).elems[eid]?).map (fun e => e.innerHTML)
        = some (some (.areaLabel ring))
    ∧ renderLabel (.areaLabel ring) = toString (jsRoundQ (getArea ring)) ++ " px²"
    ∧ getArea ring =
        |((ring.zip (ring.tail ++ ring.take 1)).map
            (fun p => cross p.1 p.2)).sum| / 2
    ∧ 0 ≤ getArea ring := by
  obtain ⟨hm, hc, hsess, heid, hoid, hfil⟩ := hl
  exact ⟨(geomChange_live_obs s sid gid eid oid k (.polygon ring)
      hsess hfil heid hoid).1, rfl,
    (getArea_eq_shoelace ring).1, (getArea_eq_shoelace ring).2⟩

/-- Claim C3 witness: a concrete live polygon sketch with ring
`[(0,0), (4,0), (0,3)]`. -/
theorem polygon_live_area_witness :
    LiveSession livePolyState 0 0 0 0 0
    ∧ ((geomChange livePolyState 0
          (.polygon [⟨0, 0⟩, ⟨4, 0⟩, ⟨0, 3⟩])).elems[0]?).map (fun e => e.innerHTML)
        = some (some (.areaLabel [⟨0, 0⟩, ⟨4, 0⟩, ⟨0, 3⟩])) :=
  ⟨by decide,
    (polygon_live_area livePolyState 0 0 0 0 0
      [⟨0, 0⟩, ⟨4, 0⟩, ⟨0, 3⟩] (by decide)).1⟩

/-- Claim C7: for every shape-changed event during a live sketch, the
live overlay's anchor is set to the polygon's interior point when the
geometry is a Polygon, and to the last vertex entered when it is a
LineString. -/
theorem live_label_anchor (s : AppState) (sid gid eid oid k : Nat)
    (g : SketchGeom) (hl : LiveSession s sid gid eid oid k) :
    ((geomChange s gid g).ovls[oid]?).map (fun o => o.position) = some (anchorOf g)
    ∧ (∀ ring, anchorOf (.polygon ring) = some (interiorPoint ring))
    ∧ (∀ cs, anchorOf (.lineString cs) = cs.getLast?) := by
  obtain ⟨hm, hc, hsess, heid, hoid, hfil⟩ := hl
  exact ⟨(geomChange_live_obs s sid gid eid oid k g hsess hfil heid hoid).2,
    fun _ => rfl, fun _ => rfl⟩

/-- Claim C7 witness: a concrete polygon shape-change event. -/
theorem live_label_anchor_witness :
    LiveSession livePolyState 0 0 0 0 0
    ∧ ((geomChange livePolyState 0
          (.polygon [⟨0, 0⟩, ⟨4, 0⟩, ⟨0, 4⟩])).ovls[0]?).map (fun o => o.position)
        = some (anchorOf (.polygon [⟨0, 0⟩, ⟨4, 0⟩, ⟨0, 4⟩])) :=
  ⟨by decide,
    (live_label_anchor livePolyState 0 0 0 0 0
      (.polygon [⟨0, 0⟩, ⟨4, 0⟩, ⟨0, 4⟩]) (by decide)).1⟩

/-- What end-sketch does while a measure sketch is live, in full: the
sketch geometry is finalized (firing one last `change` into the live
element and overlay), the element is frozen to the static class, the
overlay offset nudged to `[0, -7]`, the closure's sketch and element
variables cleared, a fresh element and overlay allocated, armed in the
closure and attached to the map, the single `change` subscription
released, and the finalized feature committed. -/
theorem drawendEv_eq (s : AppState) (sid gid eid oid k : Nat) (g : SketchGeom)
    (hl : LiveSession s sid gid eid oid k)
    (hg : s.geoms[gid]? = some g) :
    drawendEv s = { s with
      geoms := listModify s.geoms gid (fun _ => finalizeGeom g),
      elems := listModify (listModify s.elems eid
          (fun e => { e with innerHTML := some (labelOf (finalizeGeom g)) })) eid
          (fun e => { e with className := "ol-tooltip ol-tooltip-static" })
        ++ [⟨"ol-tooltip ol-tooltip-measure", none, false⟩],
      ovls := listModify (listModify s.ovls oid
          (fun o => { o with position := anchorOf (finalizeGeom g) })) oid
          (fun o => { o with offset := (0, -7) })
        ++ [⟨s.elems.length, (0, -15), none⟩],
      sessions := listModify (listModify s.sessions sid
          (fun t => { t with sketchGeomId := none, elemId := none })) sid
          (fun t => { t with elemId := some s.elems.length,
                             overlayId := some s.ovls.length }),
      mapOverlays := s.mapOverlays ++ [s.ovls.length],
      listeners := s.listeners.filter (fun l => l.key ≠ k),
      annotations := s.annotations ++ [finalizeGeom g] } := by
  obtain ⟨hm, hc, hsess, heid, hoid, hfil⟩ := hl
  have hgc := geomChange_live s sid gid eid oid k (finalizeGeom g) hsess hfil
  simp only [drawendEv, hc, hsess, hg, hgc, drawendHandler, modElem, modOvl,
    modSession, createMeasureTooltip, getElem?_listModify_self,
    listModify_length, hm, Option.map_some']
  rfl

theorem getElem?_append_len {α : Type _} (l : List α) (a : α) :
    (l ++ [a])[l.length]? = some a := by
  simp

/-- Claim C5: when a live LineString/Polygon sketch ends, the label
element switches to the static class, the overlay offset is nudged from
`[0, -15]` to the smaller `[0, -7]`, the single change-listener is
released exactly once, and a fresh live-styled element/overlay pair is
immediately allocated, attached to the map and armed in the closure. -/
theorem drawend_freeze (s : AppState) (sid gid eid oid k : Nat) (g : SketchGeom)
    (hl : LiveSession s sid gid eid oid k)
    (hg : s.geoms[gid]? = some g)
    (_hoff : (s.ovls[oid]?).map (fun o => o.offset) = some (0, -15))
    (hk : s.listeners.filter (fun l => l.key = k) = [⟨k, gid, sid⟩]) :
    ((drawendEv s).elems[eid]?).map (fun e => e.className)
        = some "ol-tooltip ol-tooltip-static"
    ∧ ((drawendEv s).ovls[oid]?).map (fun o => o.offset) = some ((0 : ℤ), (-7 : ℤ))
    ∧ (drawendEv s).listeners = s.listeners.filter (fun l => l.key ≠ k)
    ∧ (drawendEv s).listeners.length + 1 = s.listeners.length
    ∧ (drawendEv s).elems[s.elems.length]?
        = some ⟨"ol-tooltip ol-tooltip-measure", none, false⟩
    ∧ (drawendEv s).ovls[s.ovls.length]? = some ⟨s.elems.length, (0, -15), none⟩
    ∧ (drawendEv s).mapOverlays = s.mapOverlays ++ [s.ovls.length]
    ∧ (drawendEv s).sessions[sid]?
        = some ⟨none, some s.elems.length, some s.ovls.length, some k⟩ := by
  obtain ⟨hm, hc, hsess, heid, hoid, hfil⟩ := hl
  rw [drawendEv_eq s sid gid eid oid k g ⟨hm, hc, hsess, heid, hoid, hfil⟩ hg]
  have he : s.elems[eid]? = some s.elems[eid] := List.getElem?_eq_getElem heid
  have ho : s.ovls[oid]? = some s.ovls[oid] := List.getElem?_eq_getElem hoid
  refine ⟨?_, ?_, rfl, ?_, ?_, ?_, rfl, ?_⟩
  · dsimp only
    rw [getElem?_append_lt _ _ _ (by simp [listModify_length]; omega),
      getElem?_listModify_self, getElem?_listModify_self, he]
    rfl
  · dsimp only
    rw [getElem?_append_lt _ _ _ (by simp [listModify_length]; omega),
      getElem?_listModify_self, getElem?_listModify_self, ho]
    rfl
  · dsimp only
    have h1 := filter_key_length k s.listeners
    rw [hk] at h1
    simpa using h1
  · dsimp only
    have h2 := getElem?_append_len
      (listModify (listModify s.elems eid
          (fun e => { e with innerHTML := some (labelOf (finalizeGeom g)) })) eid
          (fun e => { e with className := "ol-tooltip ol-tooltip-static" }))
      (⟨"ol-tooltip ol-tooltip-measure", none, false⟩ : ElemData)
    rw [listModify_length, listModify_length] at h2
    exact h2
  · dsimp only
    have h3 := getElem?_append_len
      (listModify (listModify s.ovls oid
          (fun o => { o with position := anchorOf (finalizeGeom g) })) oid
          (fun o => { o with offset := (0, -7) }))
      (⟨s.elems.length, (0, -15), none⟩ : OverlayData)
    rw [listModify_length, listModify_length] at h3
    exact h3
  · dsimp only
    rw [getElem?_listModify_self, getElem?_listModify_self, hsess]
    rfl

/-- Claim C5 witness: ending the concrete live LineString sketch. -/
theorem drawend_freeze_witness :
    (LiveSession liveLineState 0 0 0 0 0
      ∧ liveLineState.geoms[0]? = some (.lineString [⟨0, 0⟩])
      ∧ (liveLineState.ovls[0]?).map (fun o => o.offset) = some (0, -15)
      ∧ liveLineState.listeners.filter (fun l => l.key = 0) = [⟨0, 0, 0⟩])
    ∧ (((drawendEv liveLineState).elems[0]?).map (fun e => e.className)
        = some "ol-tooltip ol-tooltip-static"
      ∧ ((drawendEv liveLineState).ovls[0]?).map (fun o => o.offset)
          = some ((0 : ℤ), (-7 : ℤ))
      ∧ (drawendEv liveLineState).listeners
          = liveLineState.listeners.filter (fun l => l.key ≠ 0)
      ∧ (drawendEv liveLineState).listeners.length + 1
          = liveLineState.listeners.length
      ∧ (drawendEv liveLineState).elems[liveLineState.elems.length]?
          = some ⟨"ol-tooltip ol-tooltip-measure", none, false⟩
      ∧ (drawendEv liveLineState).ovls[liveLineState.ovls.length]?
          = some ⟨liveLineState.elems.length, (0, -15), none⟩
      ∧ (drawendEv liveLineState).mapOverlays
          = liveLineState.mapOverlays ++ [liveLineState.ovls.length]
      ∧ (drawendEv liveLineState).sessions[0]?
          = some ⟨none, some liveLineState.elems.length,
              some liveLineState.ovls.length, some 0⟩) :=
  ⟨⟨by decide, by decide, by decide, by decide⟩,
    drawend_freeze liveLineState 0 0 0 0 0 (.lineString [⟨0, 0⟩])
      (by decide) (by decide) (by decide) (by decide)⟩

theorem getElem?_listModify_cases {α : Type _} (l : List α) (n j : Nat)
    (f : α → α) (b : α) (h : (listModify l n f)[j]? = some b) :
    (j ≠ n ∧ l[j]? = some b) ∨ (j = n ∧ ∃ a, l[n]? = some a ∧ b = f a) := by
  by_cases hj : j = n
  · subst hj
    rw [getElem?_listModify_self] at h
    cases ha : l[j]? with
    | none => rw [ha] at h; cases h
    | some a =>
      rw [ha] at h
      simp only [Option.map_some'] at h
      exact Or.inr ⟨rfl, a, rfl, (Option.some.inj h).symm⟩
  · rw [getElem?_listModify_ne l n j f hj] at h
    exact Or.inl ⟨hj, h⟩

theorem lt_of_getElem?_some {α : Type _} {l : List α} {j : Nat} {a : α}
    (h : l[j]? = some a) : j < l.length := by
  by_contra hn
  rw [List.getElem?_eq_none (by omega)] at h
  cases h

/-- Safety of the session arena (no closure points at element `eid`) is
preserved by an in-place update whose result never points at `eid`. -/
theorem safe_listModify (l : List Session) (n : Nat) (f : Session → Session)
    (eid : Nat)
    (hl : ∀ (j : Nat) (ss2 : Session), l[j]? = some ss2 → ss2.elemId ≠ some eid)
    (hf : ∀ t : Session, l[n]? = some t → (f t).elemId ≠ some eid) :
    ∀ (j : Nat) (ss2 : Session),
      (listModify l n f)[j]? = some ss2 → ss2.elemId ≠ some eid := by
  intro j ss2 hj
  rcases getElem?_listModify_cases l n j f ss2 hj with ⟨_, hj2⟩ | ⟨_, a, ha, hb⟩
  · exact hl j ss2 hj2
  · subst hb
    exact hf a ha

/-- Safety of the session arena is preserved by allocating a new session
that does not point at element `eid`. -/
theorem safe_append (l : List Session) (a : Session) (eid : Nat)
    (hl : ∀ (j : Nat) (ss2 : Session), l[j]? = some ss2 → ss2.elemId ≠ some eid)
    (ha : a.elemId ≠ some eid) :
    ∀ (j : Nat) (ss2 : Session),
      (l ++ [a])[j]? = some ss2 → ss2.elemId ≠ some eid := by
  intro j ss2 hj
  by_cases hlt : j < l.length
  · rw [getElem?_append_lt _ _ _ hlt] at hj
    exact hl j ss2 hj
  · rw [List.getElem?_append_right (by omega)] at hj
    cases hd : j - l.length with
    | zero =>
      rw [hd] at hj
      simp only [List.getElem?_cons_zero, Option.some.injEq] at hj
      rw [← hj]
      exact ha
    | succ m =>
      rw [hd] at hj
      simp only [List.getElem?_cons_succ] at hj
      exact absurd hj (by simp)

/-- A `change` handler invocation never writes to an element no closure
points at, and preserves that property. -/
theorem frozen_changeHandler (s : AppState) (sid2 : Nat) (g : SketchGeom)
    (eid : Nat) (h : FrozenElem s eid) :
    (changeHandler s sid2 g).elems[eid]? = s.elems[eid]?
    ∧ FrozenElem (changeHandler s sid2 g) eid := by
  obtain ⟨hlen, hsafe⟩ := h
  cases hss : s.sessions[sid2]? with
  | none =>
    have heq : changeHandler s sid2 g = s := by
      simp only [changeHandler, hss]
    rw [heq]
    exact ⟨rfl, hlen, hsafe⟩
  | some ss =>
    have hne : ss.elemId ≠ some eid := hsafe sid2 ss hss
    cases hei : ss.elemId with
    | none =>
      cases hoi : ss.overlayId with
      | none =>
        have heq : changeHandler s sid2 g = s := by
          simp only [changeHandler, hss, hei, hoi]
        rw [heq]
        exact ⟨rfl, hlen, hsafe⟩
      | some oid2 =>
        have heq : changeHandler s sid2 g
            = modOvl s oid2 (fun o => { o with position := anchorOf g }) := by
          simp only [changeHandler, hss, hei, hoi]
        rw [heq]
        exact ⟨rfl, hlen, hsafe⟩
    | some e2 =>
      have he2 : eid ≠ e2 := by
        intro hcontra
        exact hne (by rw [hei, hcontra])
      cases hoi : ss.overlayId with
      | none =>
        have heq : changeHandler s sid2 g
            = modElem s e2 (fun e => { e with innerHTML := some (labelOf g) }) := by
          simp only [changeHandler, hss, hei, hoi]
        rw [heq]
        refine ⟨getElem?_listModify_ne _ _ _ _ he2, ?_, hsafe⟩
        rw [show (modElem s e2
            (fun e => { e with innerHTML := some (labelOf g) })).elems.length
            = s.elems.length from listModify_length _ _ _]
        exact hlen
      | some oid2 =>
        have heq : changeHandler s sid2 g
            = modOvl (modElem s e2 (fun e => { e with innerHTML := some (labelOf g) }))
                oid2 (fun o => { o with position := anchorOf g }) := by
          simp only [changeHandler, hss, hei, hoi]
        rw [heq]
        refine ⟨getElem?_listModify_ne _ _ _ _ he2, ?_, hsafe⟩
        rw [show (modOvl (modElem s e2
              (fun e => { e with innerHTML := some (labelOf g) }))
              oid2 (fun o => { o with position := anchorOf g })).elems.length
            = (listModify s.elems e2
                (fun e => { e with innerHTML := some (labelOf g) })).length
            from rfl, listModify_length]
        exact hlen

/-- Dispatching a `change` event to any list of subscriptions preserves
element-frozenness. -/
theorem frozen_foldl_change (g : SketchGeom) (eid : Nat) :
    ∀ (L : List Listener) (s : AppState), FrozenElem s eid →
      (L.foldl (fun st l => changeHandler st l.sessionId g) s).elems[eid]?
          = s.elems[eid]?
      ∧ FrozenElem (L.foldl (fun st l => changeHandler st l.sessionId g) s) eid := by
  intro L
  induction L with
  | nil => intro s h; exact ⟨rfl, h⟩
  | cons a t ih =>
    intro s h
    have h1 := frozen_changeHandler s a.sessionId g eid h
    have h2 := ih (changeHandler s a.sessionId g) h1.2
    exact ⟨h2.1.trans h1.1, h2.2⟩

/-- A geometry mutation (with its `change` dispatch) preserves
element-frozenness. -/
theorem frozen_geomChange (s : AppState) (gid : Nat) (g : SketchGeom)
    (eid : Nat) (h : FrozenElem s eid) :
    (geomChange s gid g).elems[eid]? = s.elems[eid]?
    ∧ FrozenElem (geomChange s gid g) eid := by
  unfold geomChange
  have h1 : FrozenElem
      { s with geoms := listModify s.geoms gid (fun _ => g) } eid := h
  exact frozen_foldl_change g eid _ _ h1

/-- A `drawstart` preserves element-frozenness: the closure's element
variables are untouched. -/
theorem frozen_drawstartEv (s : AppState) (g0 : SketchGeom) (eid : Nat)
    (h : FrozenElem s eid) :
    (drawstartEv s g0).elems[eid]? = s.elems[eid]?
    ∧ FrozenElem (drawstartEv s g0) eid := by
  obtain ⟨hlen, hsafe⟩ := h
  cases hc2 : s.curSession with
  | none =>
    have heq : drawstartEv s g0 = s := by
      simp only [drawstartEv, hc2]
    rw [heq]
    exact ⟨rfl, hlen, hsafe⟩
  | some sid2 =>
    have heq : drawstartEv s g0 = { s with
        geoms := s.geoms ++ [g0],
        sessions := listModify (listModify s.sessions sid2
            (fun ss => { ss with sketchGeomId := some s.geoms.length })) sid2
            (fun ss => { ss with listenerKey := some s.nextKey }),
        listeners := s.listeners ++ [⟨s.nextKey, s.geoms.length, sid2⟩],
        nextKey := s.nextKey + 1 } := by
      simp only [drawstartEv, hc2, modSession]
    rw [heq]
    refine ⟨rfl, hlen, ?_⟩
    have hs1 : ∀ (j : Nat) (ss2 : Session),
        (listModify s.sessions sid2
          (fun ss => { ss with sketchGeomId := some s.geoms.length }))[j]?
            = some ss2 → ss2.elemId ≠ some eid :=
      safe_listModify _ _ _ _ hsafe (fun t ht => hsafe sid2 t ht)
    exact safe_listModify _ _ _ _ hs1 (fun t ht => hs1 sid2 t ht)

/-- Arming a fresh tooltip never writes to an element no closure points
at, and preserves that property (the fresh element is a new index). -/
theorem frozen_createMeasureTooltip (s : AppState) (sid2 : Nat) (eid : Nat)
    (h : FrozenElem s eid) :
    (createMeasureTooltip s sid2).elems[eid]? = s.elems[eid]?
    ∧ FrozenElem (createMeasureTooltip s sid2) eid := by
  obtain ⟨hlen, hsafe⟩ := h
  have hfset : ∀ t : Session, t.elemId ≠ some eid →
      (Session.mk t.sketchGeomId (some s.elems.length) t.overlayId t.listenerKey).elemId
        ≠ some eid := by
    intro t _ hcontra
    have := Option.some.inj hcontra
    omega
  cases hss : s.sessions[sid2]? with
  | none =>
    have heq : createMeasureTooltip s sid2 =
        if s.mapInit = true then
          { s with
            elems := s.elems ++ [⟨"ol-tooltip ol-tooltip-measure", none, false⟩],
            ovls := s.ovls ++ [⟨s.elems.length, (0, -15), none⟩],
            sessions := listModify s.sessions sid2
              (fun ss => { ss with elemId := some s.elems.length,
                                   overlayId := some s.ovls.length }),
            mapOverlays := s.mapOverlays ++ [s.ovls.length] }
        else
          { s with
            elems := s.elems ++ [⟨"ol-tooltip ol-tooltip-measure", none, false⟩],
            ovls := s.ovls ++ [⟨s.elems.length, (0, -15), none⟩],
            sessions := listModify s.sessions sid2
              (fun ss => { ss with elemId := some s.elems.length,
                                   overlayId := some s.ovls.length }) } := by
      simp only [createMeasureTooltip, hss, modSession]
    rw [heq]
    have hsafe2 : ∀ (j : Nat) (ss2 : Session),
        (listModify s.sessions sid2
          (fun ss => { ss with elemId := some s.elems.length,
                               overlayId := some s.ovls.length }))[j]?
          = some ss2 → ss2.elemId ≠ some eid :=
      safe_listModify _ _ _ _ hsafe (fun t ht => hfset t (hsafe sid2 t ht))
    refine ⟨?_, ?_, ?_⟩
    · split <;> exact getElem?_append_lt _ _ _ hlen
    · split <;> (simp only [List.length_append, List.length_cons, List.length_nil]; omega)
    · split <;> exact hsafe2
  | some ss =>
    have hne : ss.elemId ≠ some eid := hsafe sid2 ss hss
    cases hei : ss.elemId with
    | none =>
      have heq : createMeasureTooltip s sid2 =
          if s.mapInit = true then
            { s with
              elems := s.elems ++ [⟨"ol-tooltip ol-tooltip-measure", none, false⟩],
              ovls := s.ovls ++ [⟨s.elems.length, (0, -15), none⟩],
              sessions := listModify s.sessions sid2
                (fun ss => { ss with elemId := some s.elems.length,
                                     overlayId := some s.ovls.length }),
              mapOverlays := s.mapOverlays ++ [s.ovls.length] }
          else
            { s with
              elems := s.elems ++ [⟨"ol-tooltip ol-tooltip-measure", none, false⟩],
              ovls := s.ovls ++ [⟨s.elems.length, (0, -15), none⟩],
              sessions := listModify s.sessions sid2
                (fun ss => { ss with elemId := some s.elems.length,
                                     overlayId := some s.ovls.length }) } := by
        simp only [createMeasureTooltip, hss, hei, modSession]
      rw [heq]
      have hsafe2 : ∀ (j : Nat) (ss2 : Session),
          (listModify s.sessions sid2
            (fun ss => { ss with elemId := some s.elems.length,
                                 overlayId := some s.ovls.length }))[j]?
            = some ss2 → ss2.elemId ≠ some eid :=
        safe_listModify _ _ _ _ hsafe (fun t ht => hfset t (hsafe sid2 t ht))
      refine ⟨?_, ?_, ?_⟩
      · split <;> exact getElem?_append_lt _ _ _ hlen
      · split <;> (simp only [List.length_append, List.length_cons, List.length_nil]; omega)
      · split <;> exact hsafe2
    | some e2 =>
      have he2 : eid ≠ e2 := by
        intro hcontra
        exact hne (by rw [hei, hcontra])
      have heq : createMeasureTooltip s sid2 =
          if s.mapInit = true then
            { s with
              elems := listModify s.elems e2 (fun e => { e with removed := true })
                ++ [⟨"ol-tooltip ol-tooltip-measure", none, false⟩],
              ovls := s.ovls ++ [⟨s.elems.length, (0, -15), none⟩],
              sessions := listModify s.sessions sid2
                (fun ss => { ss with elemId := some s.elems.length,
                                     overlayId := some s.ovls.length }),
              mapOverlays := s.mapOverlays ++ [s.ovls.length] }
          else
            { s with
              elems := listModify s.elems e2 (fun e => { e with removed := true })
                ++ [⟨"ol-tooltip ol-tooltip-measure", none, false⟩],
              ovls := s.ovls ++ [⟨s.elems.length, (0, -15), none⟩],
              sessions := listModify s.sessions sid2
                (fun ss => { ss with elemId := some s.elems.length,
                                     overlayId := some s.ovls.length }) } := by
        simp only [createMeasureTooltip, hss, hei, modElem, modSession, listModify_length]
      rw [heq]
      have hsafe2 : ∀ (j : Nat) (ss2 : Session),
          (listModify s.sessions sid2
            (fun ss => { ss with elemId := some s.elems.length,
                                 overlayId := some s.ovls.length }))[j]?
            = some ss2 → ss2.elemId ≠ some eid :=
        safe_listModify _ _ _ _ hsafe (fun t ht => hfset t (hsafe sid2 t ht))
      have hmod : (listModify s.elems e2 (fun e => { e with removed := true })
          ++ [(⟨"ol-tooltip ol-tooltip-measure", none, false⟩ : ElemData)])[eid]?
          = s.elems[eid]? := by
        rw [getElem?_append_lt _ _ _ (by rw [listModify_length]; exact hlen),
          getElem?_listModify_ne _ _ _ _ he2]
      refine ⟨?_, ?_, ?_⟩
      · split <;> exact hmod
      · split <;> (simp only [List.length_append, List.length_cons, List.length_nil,
          listModify_length]; omega)
      · split <;> exact hsafe2

/-- The `drawend` handler never writes to an element no closure points
at, and preserves that property. -/
theorem frozen_drawendHandler (s : AppState) (sid2 : Nat) (eid : Nat)
    (h : FrozenElem s eid) :
    (drawendHandler s sid2).elems[eid]? = s.elems[eid]?
    ∧ FrozenElem (drawendHandler s sid2) eid := by
  obtain ⟨hlen, hsafe⟩ := h
  cases hss : s.sessions[sid2]? with
  | none =>
    have heq : drawendHandler s sid2 = s := by
      simp only [drawendHandler, hss]
    rw [heq]
    exact ⟨rfl, hlen, hsafe⟩
  | some ss =>
    have hne : ss.elemId ≠ some eid := hsafe sid2 ss hss
    have hclear : ∀ t : Session,
        s.sessions[sid2]? = some t →
        (Session.mk none none t.overlayId t.listenerKey).elemId ≠ some eid := by
      intro t _ hcontra
      cases hcontra
    cases hei : ss.elemId with
    | none =>
      cases hoi : ss.overlayId with
      | none =>
        have heq : drawendHandler s sid2 =
            (match ss.listenerKey with
            | some k =>
                { createMeasureTooltip (modSession s sid2
                      (fun t => { t with sketchGeomId := none, elemId := none })) sid2 with
                  listeners := (createMeasureTooltip (modSession s sid2
                      (fun t => { t with sketchGeomId := none, elemId := none })) sid2).listeners.filter
                    (fun l => l.key ≠ k) }
            | none => createMeasureTooltip (modSession s sid2
                (fun t => { t with sketchGeomId := none, elemId := none })) sid2) := by
          simp only [drawendHandler, hss, hei, hoi]
        rw [heq]
        have hf3 : FrozenElem (modSession s sid2
            (fun t => { t with sketchGeomId := none, elemId := none })) eid := by
          refine ⟨by simpa [modSession, listModify_length] using hlen, ?_⟩
          exact safe_listModify _ _ _ _ hsafe hclear
        have hfc := frozen_createMeasureTooltip (modSession s sid2
            (fun t => { t with sketchGeomId := none, elemId := none })) sid2 eid hf3
        cases ss.listenerKey with
        | none => exact ⟨hfc.1, hfc.2⟩
        | some k => exact ⟨hfc.1, hfc.2⟩
      | some oid2 =>
        have heq : drawendHandler s sid2 =
            (match ss.listenerKey with
            | some k =>
                { createMeasureTooltip (modSession (modOvl s oid2
                      (fun o => { o with offset := (0, -7) })) sid2
                      (fun t => { t with sketchGeomId := none, elemId := none })) sid2 with
                  listeners := (createMeasureTooltip (modSession (modOvl s oid2
                      (fun o => { o with offset := (0, -7) })) sid2
                      (fun t => { t with sketchGeomId := none, elemId := none })) sid2).listeners.filter
                    (fun l => l.key ≠ k) }
            | none => createMeasureTooltip (modSession (modOvl s oid2
                (fun o => { o with offset := (0, -7) })) sid2
                (fun t => { t with sketchGeomId := none, elemId := none })) sid2) := by
          simp only [drawendHandler, hss, hei, hoi]
        rw [heq]
        have hf3 : FrozenElem (modSession (modOvl s oid2
            (fun o => { o with offset := (0, -7) })) sid2
            (fun t => { t with sketchGeomId := none, elemId := none })) eid := by
          refine ⟨by simpa [modSession, modOvl, listModify_length] using hlen, ?_⟩
          exact safe_listModify _ _ _ _ hsafe hclear
        have hfc := frozen_createMeasureTooltip (modSession (modOvl s oid2
            (fun o => { o with offset := (0, -7) })) sid2
            (fun t => { t with sketchGeomId := none, elemId := none })) sid2 eid hf3
        cases ss.listenerKey with
        | none => exact ⟨hfc.1, hfc.2⟩
        | some k => exact ⟨hfc.1, hfc.2⟩
    | some e2 =>
      have he2 : eid ≠ e2 := by
        intro hcontra
        exact hne (by rw [hei, hcontra])
      cases hoi : ss.overlayId with
      | none =>
        have heq : drawendHandler s sid2 =
            (match ss.listenerKey with
            | some k =>
                { createMeasureTooltip (modSession (modElem s e2
                      (fun e => { e with className := "ol-tooltip ol-tooltip-static" })) sid2
                      (fun t => { t with sketchGeomId := none, elemId := none })) sid2 with
                  listeners := (createMeasureTooltip (modSession (modElem s e2
                      (fun e => { e with className := "ol-tooltip ol-tooltip-static" })) sid2
                      (fun t => { t with sketchGeomId := none, elemId := none })) sid2).listeners.filter
                    (fun l => l.key ≠ k) }
            | none => createMeasureTooltip (modSession (modElem s e2
                (fun e => { e with className := "ol-tooltip ol-tooltip-static" })) sid2
                (fun t => { t with sketchGeomId := none, elemId := none })) sid2) := by
          simp only [drawendHandler, hss, hei, hoi]
        rw [heq]
        have hf3 : FrozenElem (modSession (modElem s e2
            (fun e => { e with className := "ol-tooltip ol-tooltip-static" })) sid2
            (fun t => { t with sketchGeomId := none, elemId := none })) eid := by
          refine ⟨by simpa [modSession, modElem, listModify_length] using hlen, ?_⟩
          exact safe_listModify _ _ _ _ hsafe hclear
        have hfc := frozen_createMeasureTooltip (modSession (modElem s e2
            (fun e => { e with className := "ol-tooltip ol-tooltip-static" })) sid2
            (fun t => { t with sketchGeomId := none, elemId := none })) sid2 eid hf3
        have hkeep : (modSession (modElem s e2
            (fun e => { e with className := "ol-tooltip ol-tooltip-static" })) sid2
            (fun t => { t with sketchGeomId := none, elemId := none })).elems[eid]?
            = s.elems[eid]? :=
          getElem?_listModify_ne _ _ _ _ he2
        cases ss.listenerKey with
        | none => exact ⟨hfc.1.trans hkeep, hfc.2⟩
        | some k => exact ⟨hfc.1.trans hkeep, hfc.2⟩
      | some oid2 =>
        have heq : drawendHandler s sid2 =
            (match ss.listenerKey with
            | some k =>
                { createMeasureTooltip (modSession (modOvl (modElem s e2
                      (fun e => { e with className := "ol-tooltip ol-tooltip-static" })) oid2
                      (fun o => { o with offset := (0, -7) })) sid2
                      (fun t => { t with sketchGeomId := none, elemId := none })) sid2 with
                  listeners := (createMeasureTooltip (modSession (modOvl (modElem s e2
                      (fun e => { e with className := "ol-tooltip ol-tooltip-static" })) oid2
                      (fun o => { o with offset := (0, -7) })) sid2
                      (fun t => { t with sketchGeomId := none, elemId := none })) sid2).listeners.filter
                    (fun l => l.key ≠ k) }
            | none => createMeasureTooltip (modSession (modOvl (modElem s e2
                (fun e => { e with className := "ol-tooltip ol-tooltip-static" })) oid2
                (fun o => { o with offset := (0, -7) })) sid2
                (fun t => { t with sketchGeomId := none, elemId := none })) sid2) := by
          simp only [drawendHandler, hss, hei, hoi]
        rw [heq]
        have hf3 : FrozenElem (modSession (modOvl (modElem s e2
            (fun e => { e with className := "ol-tooltip ol-tooltip-static" })) oid2
            (fun o => { o with offset := (0, -7) })) sid2
            (fun t => { t with sketchGeomId := none, elemId := none })) eid := by
          refine ⟨by simpa [modSession, modOvl, modElem, listModify_length] using hlen, ?_⟩
          exact safe_listModify _ _ _ _ hsafe hclear
        have hfc := frozen_createMeasureTooltip (modSession (modOvl (modElem s e2
            (fun e => { e with className := "ol-tooltip ol-tooltip-static" })) oid2
            (fun o => { o with offset := (0, -7) })) sid2
            (fun t => { t with sketchGeomId := none, elemId := none })) sid2 eid hf3
        have hkeep : (modSession (modOvl (modElem s e2
            (fun e => { e with className := "ol-tooltip ol-tooltip-static" })) oid2
            (fun o => { o with offset := (0, -7) })) sid2
            (fun t => { t with sketchGeomId := none, elemId := none })).elems[eid]?
            = s.elems[eid]? :=
          getElem?_listModify_ne _ _ _ _ he2
        cases ss.listenerKey with
        | none => exact ⟨hfc.1.trans hkeep, hfc.2⟩
        | some k => exact ⟨hfc.1.trans hkeep, hfc.2⟩

/-- End-sketch never writes to an element no closure points at, and
preserves that property. -/
theorem frozen_drawendEv (s : AppState) (eid : Nat) (h : FrozenElem s eid) :
    (drawendEv s).elems[eid]? = s.elems[eid]?
    ∧ FrozenElem (drawendEv s) eid := by
  cases hc2 : s.curSession with
  | none =>
    have heq : drawendEv s = s := by
      simp only [drawendEv, hc2]
    rw [heq]
    exact ⟨rfl, h⟩
  | some sid2 =>
    cases hss : s.sessions[sid2]? with
    | none =>
      have heq : drawendEv s = s := by
        simp only [drawendEv, hc2, hss]
      rw [heq]
      exact ⟨rfl, h⟩
    | some ss =>
      cases hsk : ss.sketchGeomId with
      | none =>
        have heq : drawendEv s = s := by
          simp only [drawendEv, hc2, hss, hsk]
        rw [heq]
        exact ⟨rfl, h⟩
      | some gid2 =>
        cases hgg : s.geoms[gid2]? with
        | none =>
          have heq : drawendEv s = s := by
            simp only [drawendEv, hc2, hss, hsk, hgg]
          rw [heq]
          exact ⟨rfl, h⟩
        | some g2 =>
          have heq : drawendEv s =
              { drawendHandler (geomChange s gid2 (finalizeGeom g2)) sid2 with
                annotations := (drawendHandler
                    (geomChange s gid2 (finalizeGeom g2)) sid2).annotations
                  ++ [finalizeGeom g2] } := by
            simp only [drawendEv, hc2, hss, hsk, hgg]
          rw [heq]
          have h1 := frozen_geomChange s gid2 (finalizeGeom g2) eid h
          have h2 := frozen_drawendHandler (geomChange s gid2 (finalizeGeom g2))
            sid2 eid h1.2
          exact ⟨h2.1.trans h1.1, h2.2⟩

/-- Re-running the `[drawType]` effect never writes to an element no
closure points at, and preserves that property. -/
theorem frozen_runDrawTypeEffect (s : AppState) (eid : Nat) (h : FrozenElem s eid) :
    (runDrawTypeEffect s).elems[eid]? = s.elems[eid]?
    ∧ FrozenElem (runDrawTypeEffect s) eid := by
  obtain ⟨hlen, hsafe⟩ := h
  unfold runDrawTypeEffect
  split
  · exact ⟨rfl, hlen, hsafe⟩
  · split
    · have hf3 : FrozenElem
          { s with
            interactions := eraseSnap (eraseDraw s.interactions)
              ++ [Interaction.draw s.drawType],
            sessions := s.sessions ++ [Session.mk none none none none],
            curSession := some s.sessions.length } eid := by
        refine ⟨hlen, ?_⟩
        exact safe_append _ _ _ hsafe (by simp)
      have hfc := frozen_createMeasureTooltip
        { s with
          interactions := eraseSnap (eraseDraw s.interactions)
            ++ [Interaction.draw s.drawType],
          sessions := s.sessions ++ [Session.mk none none none none],
          curSession := some s.sessions.length } s.sessions.length eid hf3
      exact ⟨hfc.1, hfc.2⟩
    · exact ⟨rfl, hlen, hsafe⟩

/-- A geometry-type selection never writes to an element no closure
points at, and preserves that property. -/
theorem frozen_setGeometryType (s : AppState) (t : GeometryType) (eid : Nat)
    (h : FrozenElem s eid) :
    (setGeometryType s t).elems[eid]? = s.elems[eid]?
    ∧ FrozenElem (setGeometryType s t) eid := by
  unfold setGeometryType
  split
  · exact ⟨rfl, h⟩
  · exact frozen_runDrawTypeEffect { s with drawType := t } eid h

/-- No event ever writes to an element no closure points at, and every
event preserves that property. -/
theorem frozen_step (s : AppState) (e : Event) (eid : Nat) (h : FrozenElem s eid) :
    (step s e).elems[eid]? = s.elems[eid]? ∧ FrozenElem (step s e) eid := by
  cases e with
  | select t => exact frozen_setGeometryType s t eid h
  | start g0 => exact frozen_drawstartEv s g0 eid h
  | change gid g => exact frozen_geomChange s gid g eid h
  | finish => exact frozen_drawendEv s eid h

/-- No event sequence ever writes to an element no closure points at. -/
theorem frozen_run (eid : Nat) :
    ∀ (evs : List Event) (s : AppState), FrozenElem s eid →
      (run s evs).elems[eid]? = s.elems[eid]? := by
  intro evs
  induction evs with
  | nil => intro s _; rfl
  | cons e t ih =>
    intro s h
    have h1 := frozen_step s e eid h
    exact (ih (step s e) h1.2).trans h1.1

/-- Claim C6: after a live sketch ends (freeze), the frozen label
element's displayed content never changes again, whatever further events
occur — including stray shape-change events against the old sketch
geometry handle. -/
theorem frozen_text_immutable (s : AppState) (sid gid eid oid k : Nat)
    (g : SketchGeom) (evs : List Event)
    (hl : LiveSession s sid gid eid oid k)
    (hg : s.geoms[gid]? = some g)
    (hothers : ∀ j : Nat, j < s.sessions.length → j ≠ sid →
      (s.sessions[j]?).map (fun t => t.elemId) ≠ some (some eid)) :
    ((run (drawendEv s) evs).elems[eid]?).map (fun e => e.innerHTML)
      = ((drawendEv s).elems[eid]?).map (fun e => e.innerHTML) := by
  obtain ⟨hm, hc, hsess, heid, hoid, hfil⟩ := hl
  have hfe : FrozenElem (drawendEv s) eid := by
    rw [drawendEv_eq s sid gid eid oid k g ⟨hm, hc, hsess, heid, hoid, hfil⟩ hg]
    constructor
    · simp only [List.length_append, listModify_length, List.length_cons,
        List.length_nil]
      omega
    · intro j ss2 hj
      rcases getElem?_listModify_cases _ _ _ _ _ hj with ⟨hne, hj1⟩ | ⟨_, a, _, hb⟩
      · rcases getElem?_listModify_cases _ _ _ _ _ hj1 with ⟨_, hj2⟩ | ⟨hjeq2, _⟩
        · have hjlt : j < s.sessions.length := lt_of_getElem?_some hj2
          intro hcontra
          exact hothers j hjlt hne
            (by simp only [hj2, Option.map_some']; rw [hcontra])
        · exact absurd hjeq2 hne
      · subst hb
        intro hcontra
        have := Option.some.inj hcontra
        omega
  exact frozen_run eid evs (drawendEv s) hfe ▸ rfl

/-- Claim C6 witness: freezing the concrete live sketch and then running
a fresh sketch cycle plus a mode switch leaves the frozen element's
content untouched. -/
theorem frozen_text_immutable_witness :
    (LiveSession liveLineState 0 0 0 0 0
      ∧ liveLineState.geoms[0]? = some (.lineString [⟨0, 0⟩])
      ∧ (∀ j : Nat, j < liveLineState.sessions.length → j ≠ 0 →
          (liveLineState.sessions[j]?).map (fun t => t.elemId) ≠ some (some 0)))
    ∧ ((run (drawendEv liveLineState)
          [.start (.lineString [⟨5, 5⟩]),
           .change 1 (.lineString [⟨5, 5⟩, ⟨6, 6⟩]),
           .finish, .select .point]).elems[0]?).map (fun e => e.innerHTML)
        = ((drawendEv liveLineState).elems[0]?).map (fun e => e.innerHTML) :=
  ⟨⟨by decide, by decide, by decide⟩,
    frozen_text_immutable liveLineState 0 0 0 0 0 (.lineString [⟨0, 0⟩])
      [.start (.lineString [⟨5, 5⟩]),
       .change 1 (.lineString [⟨5, 5⟩, ⟨6, 6⟩]),
       .finish, .select .point]
      (by decide) (by decide) (by decide)⟩

/-- Claim C1 (code bug): switching geometry type mid-sketch does discard
the sketch (no annotation committed) and replaces the Draw/Snap
interactions, but it does NOT unsubscribe the in-flight shape-change
listener (`unByKey` runs only in the `drawend` handler) and does NOT
remove the previous measure overlay from the map (`removeOverlay` is
never called, the effect has no cleanup): after the switch one live
listener remains and the stale live-styled overlay is still attached. -/
theorem switch_leaks_listener_and_overlay :
    switchMidSketch.annotations = []
    ∧ switchMidSketch.interactions = [.draw .point, .snap]
    ∧ switchMidSketch.listeners = [⟨0, 0, 0⟩]
    ∧ switchMidSketch.listeners.length = 1
    ∧ switchMidSketch.mapOverlays = [0]
    ∧ (switchMidSketch.elems[0]?).map (fun e => e.className)
        = some "ol-tooltip ol-tooltip-measure"
    ∧ (switchMidSketch.elems[0]?).map (fun e => e.removed) = some false := by
  decide

/-- Claim C4: committing a polygon auto-closes its ring exactly when it
has at least 3 non-closing vertices and the first vertex is not
coordinate-equal to the last; `[(0,0),(10,0),(10,10)]` commits as the
closed 4-ring, a 2-vertex ring commits as-is. -/
theorem polygon_autoClose_commit :
    polyCloseRun.annotations = [.polygon [⟨0, 0⟩, ⟨10, 0⟩, ⟨10, 10⟩, ⟨0, 0⟩]]
    ∧ polyOpenRun.annotations = [.polygon [⟨0, 0⟩, ⟨10, 0⟩]]
    ∧ (∀ (ring : List Coord) (c0 : Coord), ring.head? = some c0 →
        3 ≤ ring.length → ring.getLast? ≠ some c0 →
        autoClose ring = ring ++ [c0])
    ∧ (∀ ring : List Coord, ring.length < 3 → autoClose ring = ring) := by
  refine ⟨by decide, by decide, ?_, ?_⟩
  · intro ring c0 hh hlen hne
    have heq : autoClose ring =
        if 3 ≤ ring.length ∧ ring.getLast? ≠ some c0 then ring ++ [c0]
        else ring := by
      simp only [autoClose, hh]
    rw [heq, if_pos ⟨hlen, hne⟩]
  · intro ring hlen
    cases hh : ring.head? with
    | none =>
      have heq : autoClose ring = ring := by
        simp only [autoClose, hh]
      exact heq
    | some c0 =>
      have heq : autoClose ring =
          if 3 ≤ ring.length ∧ ring.getLast? ≠ some c0 then ring ++ [c0]
          else ring := by
        simp only [autoClose, hh]
      rw [heq, if_neg]
      intro hcon
      omega

/-- Claim C4 witness: the auto-close conditions at the two concrete
rings. -/
theorem polygon_autoClose_commit_witness :
    ((([⟨0, 0⟩, ⟨10, 0⟩, ⟨10, 10⟩] : List Coord).head? = some ⟨0, 0⟩
        ∧ 3 ≤ ([⟨0, 0⟩, ⟨10, 0⟩, ⟨10, 10⟩] : List Coord).length
        ∧ ([⟨0, 0⟩, ⟨10, 0⟩, ⟨10, 10⟩] : List Coord).getLast? ≠ some ⟨0, 0⟩)
      ∧ ([⟨0, 0⟩, ⟨5, 5⟩] : List Coord).length < 3)
    ∧ autoClose [⟨0, 0⟩, ⟨10, 0⟩, ⟨10, 10⟩]
        = [⟨0, 0⟩, ⟨10, 0⟩, ⟨10, 10⟩, ⟨0, 0⟩]
    ∧ autoClose [⟨0, 0⟩, ⟨5, 5⟩] = [⟨0, 0⟩, ⟨5, 5⟩] :=
  ⟨⟨⟨by decide, by decide, by decide⟩, by decide⟩,
    polygon_autoClose_commit.2.2.1 _ _ (by decide) (by decide) (by decide),
    polygon_autoClose_commit.2.2.2 _ (by decide)⟩

/-- Claim C8: the geometry-type effect invoked before the map or the
vector source exists is a silent no-op — the whole state is unchanged,
so no interaction is created or removed and no overlay is added (and the
operation is total, so no error is raised). -/
theorem effect_noop_before_init (s : AppState)
    (h : s.mapInit = false ∨ s.sourceInit = false) :
    runDrawTypeEffect s = s := by
  unfold runDrawTypeEffect
  rw [if_pos]
  rcases h with h | h <;> simp [h]

/-- Claim C8 witness: the effect at the pre-mount state. -/
theorem effect_noop_before_init_witness :
    (({ mountState with mapInit := false } : AppState).mapInit = false
      ∨ ({ mountState with mapInit := false } : AppState).sourceInit = false)
    ∧ runDrawTypeEffect { mountState with mapInit := false }
        = { mountState with mapInit := false } :=
  ⟨Or.inl (by decide), effect_noop_before_init _ (Or.inl (by decide))⟩

/-- Claim C9: selecting the geometry type already current is
idempotent — no teardown, no re-instantiation, the whole state
(interactions, sessions, overlays) is unchanged. -/
theorem setGeometryType_idempotent (s : AppState) (t : GeometryType)
    (h : t = s.drawType) : setGeometryType s t = s := by
  unfold setGeometryType
  rw [if_pos h]

/-- Claim C9 witness: re-selecting Point at the initial state. -/
theorem setGeometryType_idempotent_witness :
    GeometryType.point = initState.drawType
    ∧ setGeometryType initState .point = initState :=
  ⟨by decide, setGeometryType_idempotent initState .point (by decide)⟩

/-- Claim C10: at startup, before any user selection, the selected
geometry type is Point, and the initial effect run attaches a Draw and a
Snap interaction but creates no measure overlay. -/
theorem initial_mode_point :
    mountState.drawType = .point
    ∧ initState.drawType = .point
    ∧ initState.interactions = [.draw .point, .snap]
    ∧ initState.mapOverlays = []
    ∧ initState.ovls = []
    ∧ initState.elems = []
    ∧ initState.curSession = none := by
  decide

end OLMap
